import Mathlib

/-!
Shallow embedding of the quarterly-bucketing and cache-freshness core of the
MyStockTax backend (src/app.py), together with theorems settling the frozen
claims about its specification.

Conventions of the embedding:
* Scalar observations coming from the provider are `Option ℚ`; `none` stands
  for a Python `None`/`NaN` cell, `some v` for a numeric value.  Python's
  truthiness test `if value and value > 0` therefore becomes
  "`value = some v` and `0 < v`" (`NaN > 0` is false in Python, `0` is falsy).
* Python dicts keyed by quarter-key strings are association lists with an
  overwriting assignment `setk` and a lookup `lookupk`; quarter keys are the
  pairs `(year, quarter)` produced by `year` and `((month-1)//3)+1` exactly as
  in the source, rendered to the string `"{year}Q{quarter}"` where the source
  manipulates label strings.
* `datetime.now()` is passed explicitly as the numbers
  `(current_year, current_month, current_day)`.
* The relational store is a list of rows; `supabase` insert appends a row,
  delete filters rows out, and the `.eq`-filtered queries are list filters.
-/

/-- Association-list lookup, mirroring a Python dict read `m[k]`. -/
def lookupk {κ α : Type} [DecidableEq κ] : List (κ × α) → κ → Option α
  | [], _ => none
  | p :: rest, k => if p.1 = k then some p.2 else lookupk rest k

/-- Association-list overwriting assignment, mirroring `m[k] = v` on a
Python dict: replaces the binding if the key is present, appends otherwise. -/
def setk {κ α : Type} [DecidableEq κ] (m : List (κ × α)) (k : κ) (v : α) :
    List (κ × α) :=
  if (lookupk m k).isSome then
    m.map (fun p => if p.1 = k then (k, v) else p)
  else
    m ++ [(k, v)]

/-! ## Series normalizer (`get_revenue_data_from_yahoo`, src/app.py lines 396-473)

An annual observation is one column of `ticker_obj.financials`: its year and
the `Total Revenue` cell of that column.  A quarterly observation is one
column of `ticker_obj.quarterly_financials`: its year, its month and the
`Total Revenue` cell.  The `Option ℚ` value is `none` for a `None`/`NaN`
cell.  The per-metric siblings (`get_operating_income_data_from_yahoo`,
`get_net_profit_data_from_yahoo`, ...) repeat this control flow verbatim for
a different statement line, so one embedding covers them all. -/

structure AnnualObs where
  year : ℕ
  value : Option ℚ
deriving DecidableEq

structure QuarterlyObs where
  year : ℕ
  month : ℕ
  value : Option ℚ
deriving DecidableEq

/-- Quarter of a month, the source's `((col.month - 1) // 3) + 1`. -/
def quarterOfMonth (month : ℕ) : ℕ := (month - 1) / 3 + 1

/-- A normalized mapping from quarter key `(year, quarter)` to value, the
source's `revenue_data` dict (keys rendered as `"{year}Q{quarter}"` there). -/
abbrev RevMap := List ((ℕ × ℕ) × ℚ)

/-- One iteration of the annual loop (src/app.py lines 421-434): a year in
`[current_year - years, current_year)` whose value is truthy and `> 0` gets
`v/4` assigned to all four quarter keys of that year; anything else is
skipped. -/
def annualSplitStep (current_year years : ℕ) (m : RevMap) (o : AnnualObs) :
    RevMap :=
  if current_year - years ≤ o.year ∧ o.year < current_year then
    match o.value with
    | some v =>
        if 0 < v then
          setk (setk (setk (setk m (o.year, 1) (v / 4)) (o.year, 2) (v / 4))
            (o.year, 3) (v / 4)) (o.year, 4) (v / 4)
        else m
    | none => m
  else m

/-- One iteration of the quarterly loop (src/app.py lines 455-464): a column
dated in `year >= current_year - years` whose value is truthy and `> 0` is
assigned directly to its quarter key, overwriting whatever is there. -/
def quarterlyStep (current_year years : ℕ) (m : RevMap) (o : QuarterlyObs) :
    RevMap :=
  if current_year - years ≤ o.year then
    match o.value with
    | some v =>
        if 0 < v then setk m (o.year, quarterOfMonth o.month) v else m
    | none => m
  else m

/-- The annual pass of the normalizer: stage 1 of
`get_revenue_data_from_yahoo`. -/
def annualPass (current_year years : ℕ) (annual : List AnnualObs) : RevMap :=
  annual.foldl (annualSplitStep current_year years) []

/-- The full normalizer `get_revenue_data_from_yahoo` (src/app.py lines
396-473): the annual pass followed by the quarterly pass over the same dict. -/
def get_revenue_data_from_yahoo (current_year years : ℕ)
    (annual : List AnnualObs) (quarterly : List QuarterlyObs) : RevMap :=
  quarterly.foldl (quarterlyStep current_year years)
    (annualPass current_year years annual)

/-! ## Daily price aggregation (`process_quarterly_data`, src/app.py lines 1639-1694) -/

/-- Python `int(x)` on a rational: truncation toward zero. -/
def pytrunc (x : ℚ) : ℤ := if 0 ≤ x then ⌊x⌋ else ⌈x⌉

/-- One daily closing bar of the price history, dated by year and month. -/
structure DailyBar where
  year : ℕ
  month : ℕ
  close : ℚ
deriving DecidableEq

/-- A stored quarterly average-price row.  The source also sets three
constant-zero placeholder columns on the same dict (net profit, revenue and
the operating-margin default); they carry no information and are omitted. -/
structure PriceRow where
  year : ℕ
  quarter : ℕ
  avg_price : ℤ
deriving DecidableEq

/-- The inner helper `get_available_quarters` of `process_quarterly_data`
(src/app.py lines 1647-1660). -/
def get_available_quarters (current_year year month : ℕ) : ℕ :=
  if year < current_year then 4
  else if year = current_year then
    if 10 ≤ month then 3
    else if 7 ≤ month then 2
    else if 4 ≤ month then 1
    else 0
  else 0

/-- The daily bars of `hist` falling in calendar quarter `q` of `year`
(src/app.py lines 1667-1674). -/
def quarterData (hist : List DailyBar) (year q : ℕ) : List DailyBar :=
  hist.filter (fun b =>
    decide (b.year = year ∧ (q - 1) * 3 + 1 ≤ b.month ∧ b.month ≤ q * 3))

/-- Arithmetic mean of the closing values of a list of bars, the source's
`quarter_data['Close'].mean()`. -/
def qmean (l : List DailyBar) : ℚ := (l.map (fun b => b.close)).sum / l.length

/-- The daily-aggregation normalizer `process_quarterly_data` (src/app.py
lines 1639-1694): for each year of the 10-year window and each reportable
quarter, the mean daily close is kept (truncated to an integer) unless the
quarter has no bars or the mean is not positive. -/
def process_quarterly_data (current_year current_month : ℕ)
    (hist : List DailyBar) : List PriceRow :=
  (List.range' (current_year - 10) 11).flatMap (fun year =>
    (List.range' 1 (get_available_quarters current_year year current_month)).filterMap
      (fun q =>
        let qd := quarterData hist year q
        if qd = [] then none
        else if qmean qd ≤ 0 then none
        else some ⟨year, q, pytrunc (qmean qd)⟩))

/-! ## Label-axis generator (`generate_standard_labels`, src/app.py lines 2441-2487) -/

/-- The quarter-key label `"{year}Q{quarter}"`. -/
def qlabel (year q : ℕ) : String := toString year ++ "Q" ++ toString q

/-- The reporting-lag cutoff of `generate_standard_labels` (src/app.py lines
2471-2482): quarter 3 of the current year is shown from Oct-15 onward,
quarter 2 from Jul-15, quarter 1 from Apr-15, nothing before that. -/
def code_max_quarter (current_month current_day : ℕ) : ℕ :=
  if 11 ≤ current_month ∨ (current_month = 10 ∧ 15 ≤ current_day) then 3
  else if 8 ≤ current_month ∨ (current_month = 7 ∧ 15 ≤ current_day) then 2
  else if 5 ≤ current_month ∨ (current_month = 4 ∧ 15 ≤ current_day) then 1
  else 0

/-- The label axis `generate_standard_labels` (src/app.py lines 2441-2487).
The `period` argument is accepted but unused by the source, whose start year
is hard-coded to `current_year - 3`. -/
def generate_standard_labels (period current_year current_month current_day : ℕ) :
    List String :=
  let start_year := current_year - 3
  ((List.range' start_year (current_year - start_year)).flatMap (fun year =>
    (List.range' 1 4).map (fun q => qlabel year q))) ++
  (List.range' 1 (code_max_quarter current_month current_day)).map
    (fun q => qlabel current_year q)

/-- The cutoff stated by the claim: quarter 3 from Nov-15 onward, quarter 2
from Aug-15, quarter 1 from May-15, nothing before.  This follows the words
of the claim, to be compared against `code_max_quarter`. -/
def claim_max_quarter (current_month current_day : ℕ) : ℕ :=
  if 12 ≤ current_month ∨ (current_month = 11 ∧ 15 ≤ current_day) then 3
  else if 9 ≤ current_month ∨ (current_month = 8 ∧ 15 ≤ current_day) then 2
  else if 6 ≤ current_month ∨ (current_month = 5 ∧ 15 ≤ current_day) then 1
  else 0

/-- The reference axis stated by the claim: start year `current_year - (N-1)`,
four quarters per prior year, then the current year up to
`claim_max_quarter`.  This follows the words of the claim. -/
def claim_reference_labels (n current_year current_month current_day : ℕ) :
    List String :=
  let start_year := current_year - (n - 1)
  ((List.range' start_year (current_year - start_year)).flatMap (fun year =>
    (List.range' 1 4).map (fun q => qlabel year q))) ++
  (List.range' 1 (claim_max_quarter current_month current_day)).map
    (fun q => qlabel current_year q)

/-- The reference axis of the amended claim: identical to the claim's, with
the reporting-lag thresholds moved a month earlier, to Oct-15 / Jul-15 /
Apr-15, which is what the source implements. -/
def amended_reference_labels (n current_year current_month current_day : ℕ) :
    List String :=
  let start_year := current_year - (n - 1)
  ((List.range' start_year (current_year - start_year)).flatMap (fun year =>
    (List.range' 1 4).map (fun q => qlabel year q))) ++
  (List.range' 1 (code_max_quarter current_month current_day)).map
    (fun q => qlabel current_year q)

/-- The 15 quarter keys of the axis the source generates on 2025-11-20. -/
def axisKeys2025 : List (ℕ × ℕ) :=
  [(2022, 1), (2022, 2), (2022, 3), (2022, 4),
   (2023, 1), (2023, 2), (2023, 3), (2023, 4),
   (2024, 1), (2024, 2), (2024, 3), (2024, 4),
   (2025, 1), (2025, 2), (2025, 3)]

/-! ## Chart formatters (src/app.py lines 2489-2753 and 3475-3515) -/

/-- Python `round(x, 2)`: round half to even at two decimal places. -/
def pyround2 (x : ℚ) : ℚ :=
  let y := x * 100
  let r : ℤ :=
    if y - ⌊y⌋ = 1 / 2 then (if 2 ∣ ⌊y⌋ then ⌊y⌋ else ⌊y⌋ + 1) else round y
  (r : ℚ) / 100

/-- Python `ticker.isalpha() and ticker.isascii()` (src/app.py line 181):
a non-empty all-ASCII-letter string. -/
def is_english_ticker (t : String) : Bool :=
  !t.isEmpty && t.toList.all Char.isAlpha

/-- A row as returned by the per-metric database query: the quarter it
describes and the metric column the formatter extracts via `value_key`. -/
structure DataRow where
  year : ℕ
  quarter : ℕ
  value : Option ℚ
deriving DecidableEq

/-- The `value_key` values treated as monetary flow/stock figures by
`format_chart_data_by_period` (src/app.py line 2531). -/
def monetary_value_keys : List String :=
  ["revenue", "operating_income", "net_profit", "total_debt",
   "current_liabilities", "interest_expense", "cash_and_equivalents"]

/-- The unit conversion of `format_chart_data_by_period` (src/app.py lines
2530-2538): monetary metrics are divided by 1e9 for `US` market and by 1e8
otherwise; other metrics pass through. -/
def convert_units (value_key : String) (market : Option String) (v : ℚ) : ℚ :=
  if value_key ∈ monetary_value_keys then
    if market = some "US" then v / 1000000000 else v / 100000000
  else v

/-- The sort key `lambda x: (x['year'], x['quarter'])` as a total order for
the stable sort at src/app.py line 2513 (Python's stable sort is modelled by
the stable insertion sort). -/
def rowLe (a b : DataRow) : Prop :=
  a.year < b.year ∨ (a.year = b.year ∧ a.quarter ≤ b.quarter)

instance : DecidableRel rowLe := fun a b => by unfold rowLe; exact inferInstance

/-- A formatted chart series: the label axis and one parallel value array.
`some v` is a number in the JSON output, `none` a JSON `null`. -/
structure ChartSeries where
  labels : List String
  values : List (Option ℚ)
deriving DecidableEq

/-- The label-to-value dict built by `format_chart_data_by_period`
(src/app.py lines 2511-2542): filter to the window, stable-sort by
`(year, quarter)`, then write `round(converted value, 2)` per label, a `None`
cell counting as `0`. -/
def chart_data_map (data : List DataRow) (start_year : ℕ) (value_key : String)
    (market : Option String) : List (String × ℚ) :=
  (List.insertionSort rowLe
      (data.filter (fun d => decide (start_year ≤ d.year)))).foldl
    (fun m item =>
      setk m (qlabel item.year item.quarter)
        (pyround2 (convert_units value_key market (item.value.getD 0)))) []

/-- The standardized chart formatter `format_chart_data_by_period`
(src/app.py lines 2489-2556): every axis label gets the mapped value, or `0`
when the label is unmapped — for every `value_key`, including
`stock_price`. -/
def format_chart_data_by_period (data : List DataRow) (period : ℕ)
    (value_key : String) (market : Option String)
    (current_year current_month current_day : ℕ) : ChartSeries :=
  let standard_labels :=
    generate_standard_labels period current_year current_month current_day
  let m := chart_data_map data (current_year - period) value_key market
  ⟨standard_labels,
   standard_labels.map (fun l => some ((lookupk m l).getD 0))⟩

/-- The market classification `'US' if ticker and is_english_ticker(ticker)
else 'KR'` (src/app.py line 2571); the ticker is absent when the caller
passes no ticker argument. -/
def revenue_market (ticker : Option String) : Option String :=
  if (match ticker with
      | some t => is_english_ticker t
      | none => false) then some "US" else some "KR"

/-- The formatter `format_revenue_chart_data` (src/app.py lines 2568-2578): classifies the
market off the optional ticker, then delegates; its sibling per-metric
formatters repeat this verbatim for their own `value_key`. -/
def format_revenue_chart_data (data : List DataRow) (period : ℕ)
    (ticker : Option String)
    (current_year current_month current_day : ℕ) : ChartSeries :=
  format_chart_data_by_period data period "revenue" (revenue_market ticker)
    current_year current_month current_day

/-- A stored valuation row: the three ratio columns are nullable. -/
structure ValDbRow where
  year : ℕ
  quarter : ℕ
  pbr : Option ℚ
  per : Option ℚ
  ev_ebitda : Option ℚ
deriving DecidableEq

/-- The output shape of `format_valuation_chart_data`: three parallel value
arrays over one label axis. -/
structure ValChart where
  labels : List String
  pbr_values : List (Option ℚ)
  per_values : List (Option ℚ)
  ev_ebitda_values : List (Option ℚ)
deriving DecidableEq

/-- The formatter `format_valuation_chart_data` (src/app.py lines 2700-2753): labels with a
stored row output each ratio rounded, with a null ratio output as `0`;
labels with no stored row output `0` in all three arrays. -/
def format_valuation_chart_data (data : List ValDbRow)
    (period current_year current_month current_day : ℕ) : ValChart :=
  let labels :=
    generate_standard_labels period current_year current_month current_day
  let ddict : List (String × ValDbRow) :=
    data.foldl (fun m item => setk m (qlabel item.year item.quarter) item) []
  ⟨labels,
   labels.map (fun l =>
     match lookupk ddict l with
     | some item => some ((item.pbr.map pyround2).getD 0)
     | none => some 0),
   labels.map (fun l =>
     match lookupk ddict l with
     | some item => some ((item.per.map pyround2).getD 0)
     | none => some 0),
   labels.map (fun l =>
     match lookupk ddict l with
     | some item => some ((item.ev_ebitda.map pyround2).getD 0)
     | none => some 0)⟩

/-- A stored macro-indicator row (CPI); the value column is nullable. -/
structure CpiRow where
  year : ℕ
  quarter : ℕ
  cpi_value : Option ℚ
deriving DecidableEq

/-- The formatter `format_cpi_chart_data` (src/app.py lines 3475-3515): its own label loop
covers every quarter of `start_year..current_year`; labels with a stored row
output the raw value unrounded, labels without one output `None`.  The other
macro-indicator formatters repeat this shape verbatim. -/
def format_cpi_chart_data (data : List CpiRow) (period current_year : ℕ) :
    ChartSeries :=
  let labels := (List.range' (current_year - period) (period + 1)).flatMap
    (fun year => (List.range' 1 4).map (fun q => qlabel year q))
  let m : List (String × Option ℚ) :=
    data.foldl
      (fun m item => setk m (qlabel item.year item.quarter) item.cpi_value) []
  ⟨labels,
   labels.map (fun l =>
     match lookupk m l with
     | some v => v
     | none => none)⟩

/-! ## Per-quarter valuation computation (`get_valuation_data_from_yahoo`,
src/app.py lines 1112-1208) -/

/-- The financial inputs of one quarter column: the statement cells are
nullable (`none` for a missing row or a `NaN` cell), `avg_price` is the mean
close of the quarter or `none` when the quarter has no price data. -/
structure QuarterFin where
  net_income : Option ℚ
  ebitda : Option ℚ
  tangible_book_value : Option ℚ
  shares_outstanding : Option ℚ
  total_debt : Option ℚ
  cash : Option ℚ
  avg_price : Option ℚ
deriving DecidableEq

/-- The PER rule (src/app.py lines 1166-1171): needs net income and a
strictly positive share count, then a strictly positive EPS. -/
def per_of (f : QuarterFin) (p : ℚ) : Option ℚ :=
  match f.net_income, f.shares_outstanding with
  | some ni, some sh =>
      if 0 < sh then
        if 0 < ni / sh then some (p / (ni / sh)) else none
      else none
  | _, _ => none

/-- The PBR rule (src/app.py lines 1173-1178): needs tangible book value and
a strictly positive share count, then a strictly positive book per share. -/
def pbr_of (f : QuarterFin) (p : ℚ) : Option ℚ :=
  match f.tangible_book_value, f.shares_outstanding with
  | some tbv, some sh =>
      if 0 < sh then
        if 0 < tbv / sh then some (p / (tbv / sh)) else none
      else none
  | _, _ => none

/-- The EV/EBITDA rule (src/app.py lines 1180-1192): needs a strictly
positive EBITDA and — in the code, unlike the spec — a strictly positive
share count; debt is added and cash subtracted only when present. -/
def ev_ebitda_of (f : QuarterFin) (p : ℚ) : Option ℚ :=
  match f.ebitda, f.shares_outstanding with
  | some e, some sh =>
      if 0 < e ∧ 0 < sh then
        some ((p * sh + f.total_debt.getD 0 - f.cash.getD 0) / e)
      else none
  | _, _ => none

/-- One valuation dict entry as stored per quarter key (src/app.py lines
1195-1200): each ratio field is null when undefined. -/
structure ValEntry where
  pbr : Option ℚ
  per : Option ℚ
  ev_ebitda : Option ℚ
deriving DecidableEq

/-- One iteration of the valuation loop (src/app.py lines 1152-1200): skip
the quarter when the average price is missing, otherwise store the three
ratios when at least one of them is defined. -/
def compute_valuation (f : QuarterFin) : Option ValEntry :=
  match f.avg_price with
  | none => none
  | some p =>
      if per_of f p ≠ none ∨ pbr_of f p ≠ none ∨ ev_ebitda_of f p ≠ none then
        some ⟨pbr_of f p, per_of f p, ev_ebitda_of f p⟩
      else none

/-- The EV/EBITDA rule as the spec words it:
`(avg_price * shares_outstanding + total_debt - cash) / EBITDA`, defined
only if `EBITDA > 0`.  This follows the words of the spec, to be compared
with `ev_ebitda_of`. -/
def spec_ev_ebitda (f : QuarterFin) (p : ℚ) : Option ℚ :=
  match f.ebitda with
  | some e =>
      if 0 < e then
        some ((p * f.shares_outstanding.getD 0 +
          f.total_debt.getD 0 - f.cash.getD 0) / e)
      else none
  | none => none

/-! ## Store adapters (`save_revenue_to_database`, src/app.py lines
2015-2079; `save_valuation_to_database` at lines 1216-1279 and the other
stock-metric save functions repeat the same check-then-insert loop.  One
adapter does not: `save_mortgage_delinquency_to_database` (src/app.py lines
6013-6052) updates an existing `(year, quarter)` row in place instead of
skipping it, and is embedded separately below) -/

/-- One stored revenue row.  The `last_updated` timestamp column carries no
information the claims touch and is omitted. -/
structure RevRow where
  stock_code : String
  company_name : String
  year : ℕ
  quarter : ℕ
  revenue : ℤ
  cache_year : ℕ
  cache_month : ℕ
deriving DecidableEq

abbrev RevStore := List RevRow

/-- Two rows collide on the store's unique key `(stock_code, year, quarter)`. -/
def sameKey (a b : RevRow) : Prop :=
  a.stock_code = b.stock_code ∧ a.year = b.year ∧ a.quarter = b.quarter

instance (a b : RevRow) : Decidable (sameKey a b) := by
  unfold sameKey; exact inferInstance

/-- At most one row per `(stock_code, year, quarter)`. -/
def UniqueKeyed (store : RevStore) : Prop :=
  store.Pairwise (fun a b => ¬sameKey a b)

instance (store : RevStore) : Decidable (UniqueKeyed store) := by
  unfold UniqueKeyed; exact List.instDecidablePairwise store

/-- The existence probe
`.select('id').eq('stock_code', …).eq('year', …).eq('quarter', …)`
(src/app.py line 2046). -/
def row_key_exists (store : RevStore) (code : String) (y q : ℕ) : Bool :=
  store.any (fun r => decide (r.stock_code = code ∧ r.year = y ∧ r.quarter = q))

/-- One iteration of the save loop (src/app.py lines 2038-2072): skip (and
count as skipped) when the unique key already exists, otherwise insert a new
row tagged with the current cache month; the value is stored as
`int(revenue_value)`.  The state is `(store, saved_count, skipped_count)`. -/
def saveRevStep (code name : String) (cache_year cache_month : ℕ)
    (st : RevStore × ℕ × ℕ) (e : (ℕ × ℕ) × ℚ) : RevStore × ℕ × ℕ :=
  if row_key_exists st.1 code e.1.1 e.1.2 then
    (st.1, st.2.1, st.2.2 + 1)
  else
    (st.1 ++ [⟨code, name, e.1.1, e.1.2, pytrunc e.2, cache_year, cache_month⟩],
      st.2.1 + 1, st.2.2)

/-- The adapter `save_revenue_to_database` (src/app.py lines 2015-2079): fold the save
loop over the normalized mapping, returning the new store and the two
counters. -/
def save_revenue_to_database (code name : String)
    (cache_year cache_month : ℕ) (store : RevStore) (data : RevMap) :
    RevStore × ℕ × ℕ :=
  data.foldl (saveRevStep code name cache_year cache_month) (store, 0, 0)

/-- One stored mortgage-delinquency row (table
`economy_mortgage_delinquency_data`); the series is global, so the unique
key is just `(year, quarter)`.  The `last_updated` timestamp is omitted as
for `RevRow`. -/
structure MortgageRow where
  year : ℕ
  quarter : ℕ
  delinquency_rate : ℚ
  cache_year : ℕ
  cache_month : ℕ
deriving DecidableEq

abbrev MortgageStore := List MortgageRow

/-- One iteration of the `save_mortgage_delinquency_to_database` loop
(src/app.py lines 6022-6043): when a row with the same `(year, quarter)`
exists the adapter issues an `update` that overwrites every matching row
with the new value and the current cache tag — it does not skip — and
otherwise inserts. -/
def saveMortStep (cache_year cache_month : ℕ) (store : MortgageStore)
    (e : (ℕ × ℕ) × ℚ) : MortgageStore :=
  if store.any (fun r => decide (r.year = e.1.1 ∧ r.quarter = e.1.2)) then
    store.map (fun r =>
      if r.year = e.1.1 ∧ r.quarter = e.1.2 then
        ⟨e.1.1, e.1.2, e.2, cache_year, cache_month⟩
      else r)
  else
    store ++ [⟨e.1.1, e.1.2, e.2, cache_year, cache_month⟩]

/-- The adapter `save_mortgage_delinquency_to_database` (src/app.py lines
6013-6052): fold the update-or-insert loop over the normalized mapping.  It
is the one save adapter that overwrites in place. -/
def save_mortgage_delinquency_to_database (cache_year cache_month : ℕ)
    (store : MortgageStore) (data : List ((ℕ × ℕ) × ℚ)) : MortgageStore :=
  data.foldl (saveMortStep cache_year cache_month) store

/-! ## Cache freshness gate and the revenue check/refresh endpoints
(src/app.py lines 1341-1361, 1491-1507, 1744-1758, 6414-6488, 6693-6758).

The provider is passed as the already-normalized mapping that
`get_stock_revenue_data` would return this month (it is deterministic within
a request pair), and the second component of each endpoint's result counts
the provider fetches the call performed. -/

/-- The freshness probe `check_revenue_database_data` (src/app.py lines 1341-1361): the rows of
the ticker tagged with the current month, and whether any exist. -/
def check_revenue_database_data (store : RevStore) (cache_year cache_month : ℕ)
    (code : String) : Bool × RevStore :=
  let rows := store.filter (fun r =>
    decide (r.stock_code = code ∧ r.cache_year = cache_year ∧
      r.cache_month = cache_month))
  if rows ≠ [] then (true, rows) else (false, [])

/-- The row order `(year, quarter)` of the database range query. -/
def rowLeR (a b : RevRow) : Prop :=
  a.year < b.year ∨ (a.year = b.year ∧ a.quarter ≤ b.quarter)

instance : DecidableRel rowLeR := fun a b => by unfold rowLeR; exact inferInstance

/-- The range query `get_revenue_database_data` (src/app.py lines 1491-1507): the ticker's
rows with `year >= current_year - period`, ordered by year then quarter. -/
def get_revenue_database_data (store : RevStore) (code : String)
    (current_year period : ℕ) : RevStore :=
  List.insertionSort rowLeR (store.filter (fun r =>
    decide (r.stock_code = code ∧ current_year - period ≤ r.year)))

/-- The cache clear `clear_revenue_cache_data_for_ticker` (src/app.py lines 1744-1758):
delete the ticker's rows tagged with the given cache month and report how
many were deleted. -/
def clear_revenue_cache_data_for_ticker (store : RevStore) (code : String)
    (cache_year cache_month : ℕ) : RevStore × ℕ :=
  ((store.filter (fun r =>
      decide (¬(r.stock_code = code ∧ r.cache_year = cache_year ∧
        r.cache_month = cache_month)))),
    (store.filter (fun r =>
      decide (r.stock_code = code ∧ r.cache_year = cache_year ∧
        r.cache_month = cache_month))).length)

/-- A database row rendered for the chart formatter: the formatter reads the
`year`, `quarter` and `revenue` columns. -/
def revRowsToDataRows (l : RevStore) : List DataRow :=
  l.map (fun r => ⟨r.year, r.quarter, some (r.revenue : ℚ)⟩)

/-- The body of an endpoint's HTTP response: a chart payload with an
optional `deleted_count`, or an error status. -/
inductive ApiResult where
  | ok (chart : ChartSeries) (deleted_count : Option ℕ)
  | err (status : ℕ)
deriving DecidableEq

/-- The `chart_data` of a successful response. -/

def ApiResult.chartValues : ApiResult → List (Option ℚ)
  | .ok c _ => c.values
  | .err _ => []

/-- The `deleted_count` of a response. -/
def ApiResult.deleted : ApiResult → Option ℕ
  | .ok _ d => d
  | .err _ => none

/-- The handler `check_stock_revenue` for `POST /api/stock/revenue/check`
(src/app.py lines 6414-6488): empty ticker is a 400; rows tagged with the
current month are served as a cache hit with no fetch; otherwise fetch,
save (upsert-once), re-query and format — the result triple is the store
after the call, the number of provider fetches, and the response.  Both
format calls pass the ticker. -/
def check_stock_revenue (store : RevStore) (provider : RevMap)
    (ticker company_name : String)
    (current_year current_month current_day : ℕ) : RevStore × ℕ × ApiResult :=
  if ticker = "" then (store, 0, ApiResult.err 400)
  else
    let hd := check_revenue_database_data store current_year current_month
      ticker
    if hd.1 = true ∧ hd.2 ≠ [] then
      (store, 0, ApiResult.ok
        (format_revenue_chart_data (revRowsToDataRows hd.2) 4 (some ticker)
          current_year current_month current_day) none)
    else if provider = [] then (store, 1, ApiResult.err 400)
    else
      let store2 := (save_revenue_to_database ticker company_name
        current_year current_month store provider).1
      (store2, 1, ApiResult.ok
        (format_revenue_chart_data
          (revRowsToDataRows
            (get_revenue_database_data store2 ticker current_year 4)) 4
          (some ticker) current_year current_month current_day) none)

/-- The handler `refresh_stock_revenue` for `POST /api/stock/revenue/refresh`
(src/app.py lines 6693-6758): fetch first, then clear the ticker's
current-month rows, save, re-query and format — the final format call at
line 6742 passes no ticker, unlike every sibling endpoint. -/
def refresh_stock_revenue (store : RevStore) (provider : RevMap)
    (ticker company_name : String)
    (current_year current_month current_day : ℕ) : RevStore × ℕ × ApiResult :=
  if ticker = "" then (store, 0, ApiResult.err 400)
  else if provider = [] then (store, 1, ApiResult.err 400)
  else
    let cleared := clear_revenue_cache_data_for_ticker store ticker
      current_year current_month
    let store2 := (save_revenue_to_database ticker company_name current_year
      current_month cleared.1 provider).1
    let db := get_revenue_database_data store2 ticker current_year 4
    if db = [] then (store2, 1, ApiResult.err 400)
    else (store2, 1, ApiResult.ok
      (format_revenue_chart_data (revRowsToDataRows db) 4 none
        current_year current_month current_day) (some cleared.2))

/-! ## Theorems -/

theorem lookupk_nil {κ α : Type} [DecidableEq κ] (k : κ) :
    lookupk ([] : List (κ × α)) k = none := rfl

theorem lookupk_cons {κ α : Type} [DecidableEq κ] (p : κ × α)
    (m : List (κ × α)) (k : κ) :
    lookupk (p :: m) k = if p.1 = k then some p.2 else lookupk m k := rfl

theorem lookupk_append {κ α : Type} [DecidableEq κ]
    (m₁ m₂ : List (κ × α)) (k : κ) :
    lookupk (m₁ ++ m₂) k =
      match lookupk m₁ k with
      | some v => some v
      | none => lookupk m₂ k := by
  induction m₁ with
  | nil => simp [lookupk]
  | cons p rest ih =>
      by_cases hp : p.1 = k
      · simp [lookupk_cons, hp]
      · simpa [lookupk_cons, hp] using ih

theorem lookupk_map_replace {κ α : Type} [DecidableEq κ]
    (m : List (κ × α)) (k k' : κ) (v : α) (h : k' ≠ k) :
    lookupk (m.map (fun p => if p.1 = k then (k, v) else p)) k' =
      lookupk m k' := by
  induction m with
  | nil => rfl
  | cons p rest ih =>
      by_cases hp : p.1 = k
      · simp only [List.map_cons, hp, if_true, lookupk_cons]
        rw [if_neg (Ne.symm h), if_neg (Ne.symm h), ih]
      · simp only [List.map_cons, hp, if_false, lookupk_cons]
        by_cases hp' : p.1 = k'
        · simp [hp']
        · simp only [hp', if_false, ih]

theorem lookupk_map_replace_self {κ α : Type} [DecidableEq κ]
    (m : List (κ × α)) (k : κ) (v : α) (h : (lookupk m k).isSome) :
    lookupk (m.map (fun p => if p.1 = k then (k, v) else p)) k = some v := by
  induction m with
  | nil => simp [lookupk] at h
  | cons p rest ih =>
      by_cases hp : p.1 = k
      · simp [List.map_cons, hp, lookupk_cons]
      · simp only [lookupk_cons, hp, if_false] at h
        simp only [List.map_cons, hp, if_false, lookupk_cons]
        exact ih h

theorem lookupk_setk_self {κ α : Type} [DecidableEq κ]
    (m : List (κ × α)) (k : κ) (v : α) :
    lookupk (setk m k v) k = some v := by
  unfold setk
  by_cases hs : (lookupk m k).isSome
  · rw [if_pos hs]
    exact lookupk_map_replace_self m k v hs
  · have hnone : lookupk m k = none := Option.not_isSome_iff_eq_none.mp hs
    rw [if_neg hs, lookupk_append, hnone]
    simp [lookupk]

theorem lookupk_setk_ne {κ α : Type} [DecidableEq κ]
    (m : List (κ × α)) (k k' : κ) (v : α) (h : k' ≠ k) :
    lookupk (setk m k v) k' = lookupk m k' := by
  unfold setk
  by_cases hs : (lookupk m k).isSome
  · rw [if_pos hs]
    exact lookupk_map_replace m k k' v h
  · rw [if_neg hs, lookupk_append]
    cases hk : lookupk m k' with
    | some v' => rfl
    | none => simp [lookupk, Ne.symm h]

theorem lookupk_foldl_preserve {κ α β : Type} [DecidableEq κ]
    (step : List (κ × α) → β → List (κ × α)) (l : List β)
    (m : List (κ × α)) (k : κ)
    (h : ∀ m' b, b ∈ l → lookupk (step m' b) k = lookupk m' k) :
    lookupk (l.foldl step m) k = lookupk m k := by
  induction l generalizing m with
  | nil => rfl
  | cons b rest ih =>
      rw [List.foldl_cons, ih _ (fun m' b' hb' => h m' b' (List.mem_cons_of_mem _ hb')),
        h m b (List.mem_cons_self _ _)]

theorem lookupk_foldl_stable {κ α β : Type} [DecidableEq κ]
    (step : List (κ × α) → β → List (κ × α)) (l : List β)
    (m : List (κ × α)) (k : κ) (v : α)
    (h : ∀ m' b, b ∈ l →
      lookupk (step m' b) k = lookupk m' k ∨ lookupk (step m' b) k = some v)
    (hm : lookupk m k = some v) :
    lookupk (l.foldl step m) k = some v := by
  induction l generalizing m with
  | nil => exact hm
  | cons b rest ih =>
      rw [List.foldl_cons]
      refine ih _ (fun m' b' hb' => h m' b' (List.mem_cons_of_mem _ hb')) ?_
      rcases h m b (List.mem_cons_self _ _) with hcase | hcase
      · rw [hcase, hm]
      · exact hcase

theorem lookupk_foldl_write {κ α β : Type} [DecidableEq κ]
    (step : List (κ × α) → β → List (κ × α)) (l : List β)
    (m : List (κ × α)) (k : κ) (v : α)
    (h : ∀ m' b, b ∈ l →
      lookupk (step m' b) k = lookupk m' k ∨ lookupk (step m' b) k = some v)
    (hex : ∃ b ∈ l, ∀ m', lookupk (step m' b) k = some v) :
    lookupk (l.foldl step m) k = some v := by
  induction l generalizing m with
  | nil => obtain ⟨b, hb, _⟩ := hex; simp at hb
  | cons b rest ih =>
      rw [List.foldl_cons]
      obtain ⟨b', hb', hw⟩ := hex
      rcases List.mem_cons.mp hb' with rfl | hmem
      · exact lookupk_foldl_stable step rest _ k v
          (fun m' b'' hb'' => h m' b'' (List.mem_cons_of_mem _ hb'')) (hw m)
      · exact ih _ (fun m' b'' hb'' => h m' b'' (List.mem_cons_of_mem _ hb''))
          ⟨b', hmem, hw⟩

theorem annualSplitStep_ne_year (current_year years : ℕ) (m : RevMap)
    (o : AnnualObs) (y q : ℕ) (h : y ≠ o.year) :
    lookupk (annualSplitStep current_year years m o) (y, q) =
      lookupk m (y, q) := by
  unfold annualSplitStep
  split
  · cases o.value with
    | none => rfl
    | some v =>
        by_cases hv : 0 < v
        · simp only [hv, if_true]
          rw [lookupk_setk_ne, lookupk_setk_ne, lookupk_setk_ne, lookupk_setk_ne]
          all_goals simp [Prod.ext_iff, h]
        · simp [hv]
  · rfl

theorem annualSplitStep_writes (current_year years : ℕ) (m : RevMap)
    (o : AnnualObs) (v : ℚ) (hv : o.value = some v) (hpos : 0 < v)
    (hwin : current_year - years ≤ o.year) (hlt : o.year < current_year)
    (q : ℕ) (hq : q = 1 ∨ q = 2 ∨ q = 3 ∨ q = 4) :
    lookupk (annualSplitStep current_year years m o) (o.year, q) =
      some (v / 4) := by
  unfold annualSplitStep
  rw [if_pos ⟨hwin, hlt⟩, hv]
  simp only [hpos, if_true]
  rcases hq with rfl | rfl | rfl | rfl
  · rw [lookupk_setk_ne _ _ _ _ (by simp), lookupk_setk_ne _ _ _ _ (by simp),
      lookupk_setk_ne _ _ _ _ (by simp), lookupk_setk_self]
  · rw [lookupk_setk_ne _ _ _ _ (by simp), lookupk_setk_ne _ _ _ _ (by simp),
      lookupk_setk_self]
  · rw [lookupk_setk_ne _ _ _ _ (by simp), lookupk_setk_self]
  · rw [lookupk_setk_self]

theorem quarterlyStep_ne_key (current_year years : ℕ) (m : RevMap)
    (o : QuarterlyObs) (k : ℕ × ℕ)
    (h : k ≠ (o.year, quarterOfMonth o.month)) :
    lookupk (quarterlyStep current_year years m o) k = lookupk m k := by
  unfold quarterlyStep
  split
  · cases o.value with
    | none => rfl
    | some v =>
        by_cases hv : 0 < v
        · simp only [hv, if_true]
          exact lookupk_setk_ne _ _ _ _ h
        · simp [hv]
  · rfl

theorem quarterlyStep_writes (current_year years : ℕ) (m : RevMap)
    (o : QuarterlyObs) (v : ℚ) (hv : o.value = some v) (hpos : 0 < v)
    (hwin : current_year - years ≤ o.year) :
    lookupk (quarterlyStep current_year years m o)
      (o.year, quarterOfMonth o.month) = some v := by
  unfold quarterlyStep
  rw [if_pos hwin, hv]
  simp only [hpos, if_true]
  exact lookupk_setk_self _ _ _

/-- C1: for every annual observation with positive value `v` dated in a year
`Y` strictly below the current year and inside the lookback window, the
annual-split stage of the normalizer emits exactly `v/4` into each of the
four quarter keys of `Y`, the four emitted values sum back to `v`, and an
annual observation dated in the current year leaves the mapping untouched. -/
theorem C1_annual_split (current_year years : ℕ) (annual : List AnnualObs)
    (o : AnnualObs) (v : ℚ) (hmem : o ∈ annual)
    (huniq : ∀ o' ∈ annual, o'.year = o.year → o' = o)
    (hv : o.value = some v) (hpos : 0 < v)
    (hwin : current_year - years ≤ o.year) (hlt : o.year < current_year) :
    (∀ q, q = 1 ∨ q = 2 ∨ q = 3 ∨ q = 4 →
      lookupk (annualPass current_year years annual) (o.year, q) =
        some (v / 4)) ∧
    ((lookupk (annualPass current_year years annual) (o.year, 1)).getD 0 +
     (lookupk (annualPass current_year years annual) (o.year, 2)).getD 0 +
     (lookupk (annualPass current_year years annual) (o.year, 3)).getD 0 +
     (lookupk (annualPass current_year years annual) (o.year, 4)).getD 0 = v) ∧
    (∀ (m : RevMap) (o' : AnnualObs), o'.year = current_year →
      annualSplitStep current_year years m o' = m) := by
  have hlook : ∀ q, q = 1 ∨ q = 2 ∨ q = 3 ∨ q = 4 →
      lookupk (annualPass current_year years annual) (o.year, q) =
        some (v / 4) := by
    intro q hq
    refine lookupk_foldl_write _ annual [] (o.year, q) (v / 4) ?_ ?_
    · intro m' b hb
      by_cases hyb : b.year = o.year
      · right
        have hb_eq : b = o := huniq b hb hyb
        subst hb_eq
        exact annualSplitStep_writes current_year years m' b v hv hpos hwin hlt q hq
      · left
        exact annualSplitStep_ne_year current_year years m' b o.year q
          (fun hc => hyb hc.symm)
    · exact ⟨o, hmem, fun m' =>
        annualSplitStep_writes current_year years m' o v hv hpos hwin hlt q hq⟩
  refine ⟨hlook, ?_, ?_⟩
  · rw [hlook 1 (by left; rfl), hlook 2 (by right; left; rfl),
      hlook 3 (by right; right; left; rfl), hlook 4 (by right; right; right; rfl)]
    simp only [Option.getD_some]
    ring
  · intro m o' hy
    unfold annualSplitStep
    rw [if_neg]
    intro hcon
    exact absurd (hy ▸ hcon.2) (lt_irrefl current_year)

/-- Closed witness for the C1 theorem at a concrete annual series: a 2024
annual revenue of 100, evaluated in 2025 with a 10-year window. -/
theorem C1_annual_split_witness :
    lookupk (annualPass 2025 10 [⟨2024, some 100⟩, ⟨2023, some 60⟩])
      (2024, 2) = some 25 := by
  have h := C1_annual_split 2025 10 [⟨2024, some 100⟩, ⟨2023, some 60⟩]
    ⟨2024, some 100⟩ 100 (by simp) (by intro o' h1 h2; fin_cases h1 <;> simp_all)
    rfl (by norm_num) (by norm_num) (by norm_num)
  have h2 := h.1 2 (by right; left; rfl)
  rw [h2]
  norm_num

/-- C2: a positive quarterly observation inside the lookback window always
determines the final normalized value at its quarter key — the quarterly
pass runs after the annual split and overwrites the annual-split entry. -/
theorem C2_quarterly_override (current_year years : ℕ)
    (annual : List AnnualObs) (quarterly : List QuarterlyObs)
    (o : QuarterlyObs) (v : ℚ) (hmem : o ∈ quarterly)
    (huniq : ∀ o' ∈ quarterly,
      (o'.year, quarterOfMonth o'.month) = (o.year, quarterOfMonth o.month) →
        o' = o)
    (hv : o.value = some v) (hpos : 0 < v)
    (hwin : current_year - years ≤ o.year) :
    lookupk (get_revenue_data_from_yahoo current_year years annual quarterly)
      (o.year, quarterOfMonth o.month) = some v := by
  unfold get_revenue_data_from_yahoo
  refine lookupk_foldl_write _ quarterly _ _ v ?_ ?_
  · intro m' b hb
    by_cases hkb : (b.year, quarterOfMonth b.month) =
        (o.year, quarterOfMonth o.month)
    · right
      have hb_eq : b = o := huniq b hb hkb
      subst hb_eq
      exact quarterlyStep_writes current_year years m' b v hv hpos hwin
    · left
      exact quarterlyStep_ne_key current_year years m' b _ (fun hc => hkb hc.symm)
  · exact ⟨o, hmem, fun m' =>
      quarterlyStep_writes current_year years m' o v hv hpos hwin⟩

/-- Closed witness for the C2 theorem: a 2024Q4 annual-split estimate of 25
is overwritten by the true quarterly value 40 observed for month 12 of 2024. -/
theorem C2_quarterly_override_witness :
    lookupk (get_revenue_data_from_yahoo 2025 10 [⟨2024, some 100⟩]
      [⟨2024, 12, some 40⟩]) (2024, 4) = some 40 := by
  have h := C2_quarterly_override 2025 10 [⟨2024, some 100⟩]
    [⟨2024, 12, some 40⟩] ⟨2024, 12, some 40⟩ 40 (by simp)
    (by intro o' h1 h2; fin_cases h1; simp_all) rfl (by norm_num) (by norm_num)
  simpa [quarterOfMonth] using h

theorem process_quarterly_data_mem (current_year current_month : ℕ)
    (hist : List DailyBar) (r : PriceRow)
    (hr : r ∈ process_quarterly_data current_year current_month hist) :
    quarterData hist r.year r.quarter ≠ [] ∧
    0 < qmean (quarterData hist r.year r.quarter) ∧
    r.avg_price = pytrunc (qmean (quarterData hist r.year r.quarter)) := by
  unfold process_quarterly_data at hr
  rw [List.mem_flatMap] at hr
  obtain ⟨year, _, hq⟩ := hr
  rw [List.mem_filterMap] at hq
  obtain ⟨q, _, hsome⟩ := hq
  by_cases hempty : quarterData hist year q = []
  · simp only [hempty, if_true] at hsome
    exact absurd hsome (by simp)
  · simp only [hempty, if_false] at hsome
    by_cases hle : qmean (quarterData hist year q) ≤ 0
    · simp only [hle, if_true] at hsome
      exact absurd hsome (by simp)
    · simp only [hle, if_false, Option.some.injEq] at hsome
      subst hsome
      exact ⟨hempty, lt_of_not_le hle, rfl⟩

/-- C8: discarded observations emit nothing.  An annual or quarterly
observation whose value is null/NaN or exactly zero leaves the normalized
mapping unchanged (no zero-filled quarter), and the daily price aggregation
emits no row for a quarter whose bars are absent or whose mean close is not
positive. -/
theorem C8_discard_zero_null (current_year years current_month : ℕ)
    (m : RevMap) (ao : AnnualObs) (qo : QuarterlyObs)
    (hao : ao.value = none ∨ ao.value = some 0)
    (hqo : qo.value = none ∨ qo.value = some 0) :
    annualSplitStep current_year years m ao = m ∧
    quarterlyStep current_year years m qo = m ∧
    (∀ (hist : List DailyBar) (y q : ℕ),
      (quarterData hist y q = [] ∨ qmean (quarterData hist y q) ≤ 0) →
      ∀ r ∈ process_quarterly_data current_year current_month hist,
        ¬(r.year = y ∧ r.quarter = q)) := by
  refine ⟨?_, ?_, ?_⟩
  · unfold annualSplitStep
    rcases hao with h | h <;> rw [h] <;> simp
  · unfold quarterlyStep
    rcases hqo with h | h <;> rw [h] <;> simp
  · intro hist y q hbad r hr hry
    obtain ⟨hne, hpos, _⟩ :=
      process_quarterly_data_mem current_year current_month hist r hr
    rw [hry.1, hry.2] at hne hpos
    rcases hbad with h | h
    · exact hne h
    · exact absurd hpos (not_lt.mpr h)

/-- Closed witness for the C8 theorem: a null annual cell, a zero quarterly
cell, and an all-negative price quarter all emit nothing. -/
theorem C8_discard_zero_null_witness :
    annualSplitStep 2025 10 [] ⟨2024, none⟩ = [] ∧
    quarterlyStep 2025 10 [] ⟨2024, 12, some 0⟩ = [] ∧
    ∀ r ∈ process_quarterly_data 2025 11 [⟨2024, 2, -3⟩],
      ¬(r.year = 2024 ∧ r.quarter = 1) := by
  have h := C8_discard_zero_null 2025 10 11 [] ⟨2024, none⟩ ⟨2024, 12, some 0⟩
    (Or.inl rfl) (Or.inr rfl)
  refine ⟨h.1, h.2.1, ?_⟩
  refine h.2.2 [⟨2024, 2, -3⟩] 2024 1 (Or.inr ?_)
  norm_num [quarterData, qmean, List.filter]

/-- C3 counterexample: evaluated on 2025-10-20 the code's axis already ends
at `2025Q3` while the claim's reference definition, whose Q3 threshold is
Nov-15, still ends at `2025Q2`; moreover on 2025-11-20 the code's axis has
15 labels (3 prior years of 4 quarters each, start year `2025 - 3 = 2022`,
plus Q1..Q3), not the 19 the claim asserts. -/
theorem C3_label_axis_counterexample :
    generate_standard_labels 4 2025 10 20 ≠
      claim_reference_labels 4 2025 10 20 ∧
    (generate_standard_labels 4 2025 10 20).length = 15 ∧
    (claim_reference_labels 4 2025 10 20).length = 14 ∧
    (generate_standard_labels 4 2025 11 20).length = 15 := by
  refine ⟨?_, by decide, by decide, by decide⟩
  intro h
  have := congrArg List.length h
  revert this
  decide

/-- C3 amended: at every evaluation date the label axis for lookback `N = 4`
equals the reference definition whose current-year cutoffs are Oct-15 /
Jul-15 / Apr-15 (a month earlier than claimed); and on 2025-11-20 the axis
is the 12 prior-year quarters 2022Q1..2024Q4 (start year `current_year - 3`,
so three prior years, not four) followed by 2025Q1..2025Q3, 15 labels in
strictly increasing key order with no duplicates. -/
theorem C3_label_axis_amended (current_year current_month current_day : ℕ) :
    generate_standard_labels 4 current_year current_month current_day =
      amended_reference_labels 4 current_year current_month current_day ∧
    generate_standard_labels 4 2025 11 20 =
      (axisKeys2025.map (fun p => qlabel p.1 p.2)) ∧
    (generate_standard_labels 4 2025 11 20).length = 15 ∧
    List.Chain' (fun a b : ℕ × ℕ =>
      a.1 < b.1 ∨ (a.1 = b.1 ∧ a.2 < b.2)) axisKeys2025 ∧
    (generate_standard_labels 4 2025 11 20).Nodup := by
  refine ⟨rfl, by decide, by decide, ?_, by decide⟩
  norm_num [axisKeys2025, List.chain'_cons, List.chain'_singleton]

theorem map_getD_of_lt {α β : Type} (l : List α) (f : α → β) (i : ℕ)
    (dα : α) (dβ : β) (h : i < l.length) :
    (l.map f).getD i dβ = f (l.getD i dα) := by
  rw [List.getD_eq_getElem _ _ (by simpa using h),
    List.getD_eq_getElem _ _ h, List.getElem_map]

/-- C4 counterexample: on the empty store the valuation formatter fills every
axis position of each ratio array with `0`, not `None` as the claim states,
and the generic formatter does the same for the price metric. -/
theorem C4_gap_sentinel_counterexample :
    (format_valuation_chart_data [] 4 2025 11 20).pbr_values =
      List.replicate 15 (some 0) ∧
    (format_valuation_chart_data [] 4 2025 11 20).pbr_values ≠
      List.replicate 15 (none : Option ℚ) ∧
    (format_chart_data_by_period [] 4 "stock_price" none 2025 11 20).values =
      List.replicate 15 (some 0) := by
  refine ⟨by decide, by decide, by decide⟩

theorem chart_data_map_absent (data : List DataRow) (start_year : ℕ)
    (value_key : String) (market : Option String) (l : String)
    (h : ∀ d ∈ data, qlabel d.year d.quarter ≠ l) :
    lookupk (chart_data_map data start_year value_key market) l = none := by
  unfold chart_data_map
  rw [lookupk_foldl_preserve]
  · exact lookupk_nil l
  · intro m' b hb
    have hbdata : b ∈ data :=
      (List.mem_filter.mp ((List.perm_insertionSort rowLe _).mem_iff.mp hb)).1
    exact lookupk_setk_ne _ _ _ _ (Ne.symm (h b hbdata))

theorem chart_data_map_present (data : List DataRow) (start_year : ℕ)
    (value_key : String) (market : Option String) (d : DataRow)
    (hd : d ∈ data) (hwin : start_year ≤ d.year)
    (huniq : ∀ d' ∈ data,
      qlabel d'.year d'.quarter = qlabel d.year d.quarter → d' = d) :
    lookupk (chart_data_map data start_year value_key market)
      (qlabel d.year d.quarter) =
      some (pyround2 (convert_units value_key market (d.value.getD 0))) := by
  unfold chart_data_map
  refine lookupk_foldl_write _ _ _ _ _ ?_ ?_
  · intro m' b hb
    have hbdata : b ∈ data :=
      (List.mem_filter.mp ((List.perm_insertionSort rowLe _).mem_iff.mp hb)).1
    by_cases hlb : qlabel b.year b.quarter = qlabel d.year d.quarter
    · right
      have hbd : b = d := huniq b hbdata hlb
      subst hbd
      exact lookupk_setk_self _ _ _
    · left
      exact lookupk_setk_ne _ _ _ _ (fun hc => hlb hc.symm)
  · refine ⟨d, ?_, fun m' => lookupk_setk_self _ _ _⟩
    exact (List.perm_insertionSort rowLe _).mem_iff.mpr
      (List.mem_filter.mpr ⟨hd, by simpa using hwin⟩)

theorem cpi_map_absent (data : List CpiRow) (l : String)
    (h : ∀ d ∈ data, qlabel d.year d.quarter ≠ l) :
    lookupk (data.foldl
      (fun m item => setk m (qlabel item.year item.quarter) item.cpi_value)
      []) l = none := by
  rw [lookupk_foldl_preserve]
  · exact lookupk_nil l
  · intro m' b hb
    exact lookupk_setk_ne _ _ _ _ (Ne.symm (h b hb))

theorem cpi_map_present (data : List CpiRow) (d : CpiRow) (hd : d ∈ data)
    (huniq : ∀ d' ∈ data,
      qlabel d'.year d'.quarter = qlabel d.year d.quarter → d' = d) :
    lookupk (data.foldl
      (fun m item => setk m (qlabel item.year item.quarter) item.cpi_value)
      []) (qlabel d.year d.quarter) = some d.cpi_value := by
  refine lookupk_foldl_write _ _ _ _ _ ?_ ⟨d, hd, fun m' => lookupk_setk_self _ _ _⟩
  intro m' b hb
  by_cases hlb : qlabel b.year b.quarter = qlabel d.year d.quarter
  · right
    have hbd : b = d := huniq b hb hlb
    subst hbd
    exact lookupk_setk_self _ _ _
  · left
    exact lookupk_setk_ne _ _ _ _ (fun hc => hlb hc.symm)

/-- C4 amended: an axis label with no mapped stored value is output as `0`
not only for the flow/stock metrics but for every `value_key` of the generic
formatter (including `stock_price`) and for all three valuation-ratio arrays;
only the macro-indicator formatters output `None` for an unmapped label.  A
label mapped by the generic formatter outputs the unit-converted value
rounded to 2 decimals, while the macro formatter outputs the stored value
unrounded. -/
theorem C4_gap_sentinel_amended (data : List DataRow) (dataV : List ValDbRow)
    (dataC : List CpiRow) (period : ℕ) (value_key : String)
    (market : Option String) (current_year current_month current_day i : ℕ) :
    (i < (generate_standard_labels period current_year current_month
        current_day).length →
      (∀ d ∈ data, qlabel d.year d.quarter ≠
        (generate_standard_labels period current_year current_month
          current_day).getD i "") →
      (format_chart_data_by_period data period value_key market current_year
        current_month current_day).values.getD i none = some 0) ∧
    (∀ d ∈ data, current_year - period ≤ d.year →
      (∀ d' ∈ data,
        qlabel d'.year d'.quarter = qlabel d.year d.quarter → d' = d) →
      i < (generate_standard_labels period current_year current_month
        current_day).length →
      (generate_standard_labels period current_year current_month
        current_day).getD i "" = qlabel d.year d.quarter →
      (format_chart_data_by_period data period value_key market current_year
        current_month current_day).values.getD i none =
        some (pyround2 (convert_units value_key market (d.value.getD 0)))) ∧
    (i < (generate_standard_labels period current_year current_month
        current_day).length →
      (∀ d ∈ dataV, qlabel d.year d.quarter ≠
        (generate_standard_labels period current_year current_month
          current_day).getD i "") →
      (format_valuation_chart_data dataV period current_year current_month
        current_day).pbr_values.getD i none = some 0 ∧
      (format_valuation_chart_data dataV period current_year current_month
        current_day).per_values.getD i none = some 0 ∧
      (format_valuation_chart_data dataV period current_year current_month
        current_day).ev_ebitda_values.getD i none = some 0) ∧
    (i < (format_cpi_chart_data dataC period current_year).labels.length →
      (∀ d ∈ dataC, qlabel d.year d.quarter ≠
        (format_cpi_chart_data dataC period current_year).labels.getD i "") →
      (format_cpi_chart_data dataC period current_year).values.getD i none =
        none) ∧
    (∀ d ∈ dataC,
      (∀ d' ∈ dataC,
        qlabel d'.year d'.quarter = qlabel d.year d.quarter → d' = d) →
      i < (format_cpi_chart_data dataC period current_year).labels.length →
      (format_cpi_chart_data dataC period current_year).labels.getD i "" =
        qlabel d.year d.quarter →
      (format_cpi_chart_data dataC period current_year).values.getD i none =
        d.cpi_value) := by
  refine ⟨?_, ?_, ?_, ?_, ?_⟩
  · intro hi habsent
    unfold format_chart_data_by_period
    rw [map_getD_of_lt _ _ i "" none hi,
      chart_data_map_absent data _ value_key market _ habsent]
    rfl
  · intro d hd hwin huniq hi hlbl
    unfold format_chart_data_by_period
    rw [map_getD_of_lt _ _ i "" none hi, hlbl,
      chart_data_map_present data _ value_key market d hd hwin huniq]
    rfl
  · intro hi habsent
    unfold format_valuation_chart_data
    refine ⟨?_, ?_, ?_⟩
    all_goals
      rw [map_getD_of_lt _ _ i "" none hi]
      rw [lookupk_foldl_preserve _ _ _ _
        (fun m' b hb => lookupk_setk_ne _ _ _ _ (Ne.symm (habsent b hb)))]
      rfl
  · intro hi habsent
    unfold format_cpi_chart_data at hi habsent ⊢
    rw [map_getD_of_lt _ _ i "" none hi, cpi_map_absent dataC _ habsent]
  · intro d hd huniq hi hlbl
    unfold format_cpi_chart_data at hi hlbl ⊢
    rw [map_getD_of_lt _ _ i "" none hi, hlbl,
      cpi_map_present dataC d hd huniq]

/-- Closed witness for the amended C4 theorem: one stored revenue row, one
stored CPI row, axis position 0 unmapped in both, CPI position 12 mapped. -/
theorem C4_gap_sentinel_amended_witness :
    (format_chart_data_by_period [⟨2024, 1, some 5⟩] 4 "revenue" (some "KR")
      2025 11 20).values.getD 0 none = some 0 ∧
    (format_cpi_chart_data [⟨2024, 1, some 7⟩] 4 2025).values.getD 0 none =
      none ∧
    (format_cpi_chart_data [⟨2024, 1, some 7⟩] 4 2025).values.getD 12 none =
      some 7 := by
  refine ⟨?_, ?_, ?_⟩
  · exact (C4_gap_sentinel_amended [⟨2024, 1, some 5⟩] [] [] 4 "revenue"
      (some "KR") 2025 11 20 0).1 (by decide) (by decide)
  · exact (C4_gap_sentinel_amended [] [] [⟨2024, 1, some 7⟩] 4 "revenue"
      (some "KR") 2025 11 20 0).2.2.2.1 (by decide) (by decide)
  · have h := (C4_gap_sentinel_amended [] [] [⟨2024, 1, some 7⟩] 4 "revenue"
      (some "KR") 2025 11 20 12).2.2.2.2 ⟨2024, 1, some 7⟩ (by decide)
      (by decide) (by decide) (by decide)
    simpa using h

/-- C9 counterexample: with `shares_outstanding = 0`, positive EBITDA and
positive tangible book value, the spec's EV/EBITDA is defined, but the code
yields `None` for all three ratios and emits no valuation row at all — the
claimed "other ratios may still be defined" never happens, and no row
exists even though a ratio is computable by the spec's own formula. -/
theorem C9_valuation_counterexample :
    compute_valuation
      ⟨some 8, some 5, some 10, some 0, some 2, some 1, some 100⟩ = none ∧
    pbr_of ⟨some 8, some 5, some 10, some 0, some 2, some 1, some 100⟩ 100 =
      none ∧
    ev_ebitda_of
      ⟨some 8, some 5, some 10, some 0, some 2, some 1, some 100⟩ 100 =
      none ∧
    spec_ev_ebitda
      ⟨some 8, some 5, some 10, some 0, some 2, some 1, some 100⟩ 100 =
      some (1 / 5) := by
  refine ⟨?_, ?_, ?_, ?_⟩
  · norm_num [compute_valuation, per_of, pbr_of, ev_ebitda_of]
  · norm_num [pbr_of]
  · norm_num [ev_ebitda_of]
  · norm_num [spec_ev_ebitda]

/-- C9 amended: when `shares_outstanding = 0` no ratio is defined and no
valuation row is emitted (in particular no division by zero is performed);
in general a quarter's valuation row exists iff its average price is present
and at least one of the three ratios is computable under the code's
conditions, and an existing row stores every undefined ratio as null rather
than omitting the row. -/
theorem C9_valuation_amended (f : QuarterFin) :
    (f.shares_outstanding = some 0 →
      (∀ p, per_of f p = none ∧ pbr_of f p = none ∧ ev_ebitda_of f p = none) ∧
      compute_valuation f = none) ∧
    (f.avg_price = none → compute_valuation f = none) ∧
    (∀ p, f.avg_price = some p →
      ((compute_valuation f).isSome ↔
        (per_of f p ≠ none ∨ pbr_of f p ≠ none ∨ ev_ebitda_of f p ≠ none))) ∧
    (∀ p e, f.avg_price = some p → compute_valuation f = some e →
      e = ⟨pbr_of f p, per_of f p, ev_ebitda_of f p⟩) := by
  refine ⟨?_, ?_, ?_, ?_⟩
  · intro hsh
    have hnone : ∀ p, per_of f p = none ∧ pbr_of f p = none ∧
        ev_ebitda_of f p = none := by
      intro p
      refine ⟨?_, ?_, ?_⟩
      · unfold per_of
        rw [hsh]
        cases f.net_income <;> simp
      · unfold pbr_of
        rw [hsh]
        cases f.tangible_book_value <;> simp
      · unfold ev_ebitda_of
        rw [hsh]
        cases f.ebitda <;> simp
    refine ⟨hnone, ?_⟩
    unfold compute_valuation
    cases hp : f.avg_price with
    | none => rfl
    | some p =>
        obtain ⟨h1, h2, h3⟩ := hnone p
        simp [h1, h2, h3]
  · intro hp
    unfold compute_valuation
    rw [hp]
  · intro p hp
    simp only [compute_valuation, hp]
    by_cases hdef : per_of f p ≠ none ∨ pbr_of f p ≠ none ∨
        ev_ebitda_of f p ≠ none
    · rw [if_pos hdef]
      simpa using hdef
    · rw [if_neg hdef]
      simpa using hdef
  · intro p e hp he
    simp only [compute_valuation, hp] at he
    by_cases hdef : per_of f p ≠ none ∨ pbr_of f p ≠ none ∨
        ev_ebitda_of f p ≠ none
    · rw [if_pos hdef] at he
      exact (Option.some.inj he).symm
    · rw [if_neg hdef] at he
      exact absurd he (by simp)

/-- Closed witness for the amended C9 theorem, applying it at two concrete
quarters: one with two shares outstanding (a row exists iff a ratio is
defined) and one with zero shares outstanding (no row). -/
theorem C9_valuation_amended_witness :
    ((compute_valuation
        ⟨some 8, some 5, some 10, some 2, some 2, some 1, some 100⟩).isSome ↔
      (per_of ⟨some 8, some 5, some 10, some 2, some 2, some 1, some 100⟩
          100 ≠ none ∨
        pbr_of ⟨some 8, some 5, some 10, some 2, some 2, some 1, some 100⟩
          100 ≠ none ∨
        ev_ebitda_of
          ⟨some 8, some 5, some 10, some 2, some 2, some 1, some 100⟩
          100 ≠ none)) ∧
    compute_valuation
      ⟨some 8, some 5, some 10, some 0, some 2, some 1, some 100⟩ = none :=
  ⟨(C9_valuation_amended
      ⟨some 8, some 5, some 10, some 2, some 2, some 1, some 100⟩).2.2.1
      100 rfl,
    ((C9_valuation_amended
      ⟨some 8, some 5, some 10, some 0, some 2, some 1, some 100⟩).1 rfl).2⟩

theorem saveRev_foldl_preserves (code name : String) (cy cm : ℕ)
    (data : RevMap) (store : RevStore) (s k : ℕ) (r : RevRow)
    (hr : r ∈ store) :
    r ∈ (data.foldl (saveRevStep code name cy cm) (store, s, k)).1 := by
  induction data generalizing store s k with
  | nil => exact hr
  | cons e rest ih =>
      rw [List.foldl_cons]
      unfold saveRevStep
      by_cases hex : row_key_exists store code e.1.1 e.1.2
      · simp only [hex, if_true]
        exact ih store s (k + 1) hr
      · simp only [hex, if_false]
        exact ih _ (s + 1) k (List.mem_append_left _ hr)

theorem saveRev_foldl_rows_from (code name : String) (cy cm : ℕ)
    (data : RevMap) (store : RevStore) (s k : ℕ) (r : RevRow)
    (hr : r ∈ (data.foldl (saveRevStep code name cy cm) (store, s, k)).1) :
    r ∈ store ∨ (r.stock_code = code ∧ r.company_name = name ∧
      r.cache_year = cy ∧ r.cache_month = cm) := by
  induction data generalizing store s k with
  | nil => exact Or.inl hr
  | cons e rest ih =>
      rw [List.foldl_cons] at hr
      unfold saveRevStep at hr
      by_cases hex : row_key_exists store code e.1.1 e.1.2
      · simp only [hex, if_true] at hr
        exact ih store s (k + 1) hr
      · simp only [hex, if_false] at hr
        rcases ih _ (s + 1) k hr with hin | hnew
        · rcases List.mem_append.mp hin with hold | hsingle
          · exact Or.inl hold
          · rcases List.mem_singleton.mp hsingle with rfl
            exact Or.inr ⟨rfl, rfl, rfl, rfl⟩
        · exact Or.inr hnew

theorem saveRev_foldl_counts (code name : String) (cy cm : ℕ)
    (data : RevMap) (store : RevStore) (s k : ℕ) :
    (data.foldl (saveRevStep code name cy cm) (store, s, k)).2.1 +
      (data.foldl (saveRevStep code name cy cm) (store, s, k)).2.2 =
      s + k + data.length := by
  induction data generalizing store s k with
  | nil => rfl
  | cons e rest ih =>
      rw [List.foldl_cons]
      unfold saveRevStep
      by_cases hex : row_key_exists store code e.1.1 e.1.2
      · simp only [hex, if_true]
        exact (ih store s (k + 1)).trans
          (by simp only [List.length_cons]; omega)
      · simp only [hex, if_false]
        exact (ih _ (s + 1) k).trans
          (by simp only [List.length_cons]; omega)

theorem saveRev_foldl_unique (code name : String) (cy cm : ℕ)
    (data : RevMap) (store : RevStore) (s k : ℕ)
    (h : UniqueKeyed store) :
    UniqueKeyed (data.foldl (saveRevStep code name cy cm) (store, s, k)).1 := by
  induction data generalizing store s k with
  | nil => exact h
  | cons e rest ih =>
      rw [List.foldl_cons]
      unfold saveRevStep
      by_cases hex : row_key_exists store code e.1.1 e.1.2
      · simp only [hex, if_true]
        exact ih store s (k + 1) h
      · simp only [hex, if_false]
        refine ih _ (s + 1) k ?_
        unfold UniqueKeyed at h ⊢
        rw [List.pairwise_append]
        refine ⟨h, List.pairwise_singleton _ _, ?_⟩
        intro a ha b hb
        rcases List.mem_singleton.mp hb with rfl
        intro hkey
        have : ∀ r ∈ store,
            ¬(r.stock_code = code ∧ r.year = e.1.1 ∧ r.quarter = e.1.2) := by
          simpa [row_key_exists, List.any_eq_true] using hex
        exact this a ha hkey

/-- C7 counterexample: `save_mortgage_delinquency_to_database` does not
skip an existing row — saving a 2024Q1 rate of 7 over a store holding a
2024Q1 row with rate 5 (tagged 2025-10) replaces that row in place with the
new value and the current 2025-11 cache tag, so the claim's universal
"each save function ... never updates the existing row in place" is false
of the code. -/
theorem C7_upsert_once_counterexample :
    save_mortgage_delinquency_to_database 2025 11
      [⟨2024, 1, 5, 2025, 10⟩] [((2024, 1), 7)] =
      [⟨2024, 1, 7, 2025, 11⟩] ∧
    (⟨2024, 1, 5, 2025, 10⟩ : MortgageRow) ∉
      save_mortgage_delinquency_to_database 2025 11
        [⟨2024, 1, 5, 2025, 10⟩] [((2024, 1), 7)] := by
  constructor
  · norm_num [save_mortgage_delinquency_to_database, saveMortStep]
  · norm_num [save_mortgage_delinquency_to_database, saveMortStep]

/-- C7 amended: every stock-metric save adapter (modelled by
`save_revenue_to_database`, whose check-then-insert loop the siblings
repeat) is upsert-once — it preserves the unique-key invariant, never
updates or deletes an existing row, tags every inserted row with the given
cache month, and accounts every entry as saved or skipped — while the one
macro-indicator adapter `save_mortgage_delinquency_to_database`, when a row
with the written `(year, quarter)` key exists, overwrites it in place with
the new value and the current cache tag instead of skipping it. -/
theorem C7_upsert_once_amended (code name : String)
    (cache_year cache_month : ℕ) (store : RevStore) (data : RevMap)
    (h : UniqueKeyed store) (mstore : MortgageStore) (y q : ℕ) (v : ℚ) :
    UniqueKeyed
      (save_revenue_to_database code name cache_year cache_month store
        data).1 ∧
    (∀ r ∈ store, r ∈
      (save_revenue_to_database code name cache_year cache_month store
        data).1) ∧
    (∀ r ∈ (save_revenue_to_database code name cache_year cache_month store
        data).1,
      r ∈ store ∨ (r.stock_code = code ∧ r.company_name = name ∧
        r.cache_year = cache_year ∧ r.cache_month = cache_month)) ∧
    ((save_revenue_to_database code name cache_year cache_month store
        data).2.1 +
      (save_revenue_to_database code name cache_year cache_month store
        data).2.2 = data.length) ∧
    ((⟨y, q, v, cache_year, cache_month⟩ : MortgageRow) ∈
      saveMortStep cache_year cache_month mstore ((y, q), v)) ∧
    (∀ r ∈ mstore, r.year = y ∧ r.quarter = q →
      r ≠ ⟨y, q, v, cache_year, cache_month⟩ →
      r ∉ saveMortStep cache_year cache_month mstore ((y, q), v)) := by
  refine ⟨?_, ?_, ?_, ?_, ?_, ?_⟩
  · exact saveRev_foldl_unique code name _ _ data store 0 0 h
  · exact fun r hr => saveRev_foldl_preserves code name _ _ data store 0 0 r hr
  · exact fun r hr => saveRev_foldl_rows_from code name _ _ data store 0 0 r hr
  · unfold save_revenue_to_database
    rw [saveRev_foldl_counts code name _ _ data store 0 0]
    omega
  · unfold saveMortStep
    by_cases hex : mstore.any (fun r => decide (r.year = y ∧ r.quarter = q))
    · rw [if_pos hex]
      simp only [List.any_eq_true, decide_eq_true_eq] at hex
      obtain ⟨r0, hr0, hk0⟩ := hex
      refine List.mem_map.mpr ⟨r0, hr0, ?_⟩
      rw [if_pos hk0]
    · rw [if_neg hex]
      exact List.mem_append_right _ (List.mem_singleton.mpr rfl)
  · intro r hr hk hne hmem
    unfold saveMortStep at hmem
    by_cases hex : mstore.any (fun r => decide (r.year = y ∧ r.quarter = q))
    · rw [if_pos hex] at hmem
      obtain ⟨x, hx, hxr⟩ := List.mem_map.mp hmem
      by_cases hkx : x.year = y ∧ x.quarter = q
      · rw [if_pos hkx] at hxr
        exact hne hxr.symm
      · rw [if_neg hkx] at hxr
        exact hkx (hxr ▸ hk)
    · exact hex (List.any_eq_true.mpr ⟨r, hr, by simpa using hk⟩)

/-- Closed witness for the amended C7 theorem: the revenue store keeps its
colliding 2024Q1 row untouched after a save, while the mortgage adapter
replaces its 2024Q1 row (rate 5, tag 2025-10) by the freshly written row
(rate 7, tag 2025-11). -/
theorem C7_upsert_once_amended_witness :
    UniqueKeyed [⟨"AAPL", "Apple", 2024, 1, 7, 2025, 10⟩] ∧
    UniqueKeyed
      (save_revenue_to_database "AAPL" "Apple" 2025 11
        [⟨"AAPL", "Apple", 2024, 1, 7, 2025, 10⟩]
        [((2024, 1), 55), ((2023, 4), 60)]).1 ∧
    ((⟨"AAPL", "Apple", 2024, 1, 7, 2025, 10⟩ : RevRow) ∈
      (save_revenue_to_database "AAPL" "Apple" 2025 11
        [⟨"AAPL", "Apple", 2024, 1, 7, 2025, 10⟩]
        [((2024, 1), 55), ((2023, 4), 60)]).1) ∧
    ((⟨2024, 1, 7, 2025, 11⟩ : MortgageRow) ∈
      saveMortStep 2025 11 [⟨2024, 1, 5, 2025, 10⟩] ((2024, 1), 7)) ∧
    (⟨2024, 1, 5, 2025, 10⟩ : MortgageRow) ∉
      saveMortStep 2025 11 [⟨2024, 1, 5, 2025, 10⟩] ((2024, 1), 7) := by
  have hu : UniqueKeyed [⟨"AAPL", "Apple", 2024, 1, 7, 2025, 10⟩] := by
    unfold UniqueKeyed
    exact List.pairwise_singleton _ _
  have h := C7_upsert_once_amended "AAPL" "Apple" 2025 11
    [⟨"AAPL", "Apple", 2024, 1, 7, 2025, 10⟩]
    [((2024, 1), 55), ((2023, 4), 60)] hu
    [⟨2024, 1, 5, 2025, 10⟩] 2024 1 7
  refine ⟨hu, h.1, h.2.1 _ (List.mem_singleton.mpr rfl), h.2.2.2.2.1, ?_⟩
  refine h.2.2.2.2.2 _ (List.mem_singleton.mpr rfl) ⟨rfl, rfl⟩ ?_
  intro hc
  have : (5 : ℚ) = 7 := congrArg MortgageRow.delinquency_rate hc
  norm_num at this

theorem annualPass_singleton (current_year years y : ℕ) (w : ℚ)
    (hw : 0 < w) (hwin : current_year - years ≤ y) (hlt : y < current_year) :
    annualPass current_year years [⟨y, some w⟩] =
      [((y, 1), w / 4), ((y, 2), w / 4), ((y, 3), w / 4), ((y, 4), w / 4)] := by
  unfold annualPass
  rw [List.foldl_cons, List.foldl_nil]
  unfold annualSplitStep
  rw [if_pos ⟨hwin, hlt⟩]
  simp only [hw, if_true]
  simp [setk, lookupk, Prod.ext_iff]

/-- C10: the store adapters truncate toward zero before insertion.  Saving
the annual split of a positive integer observation `v` stores `int(v/4)`
four times, so the stored quarters sum to `4 * int(v/4)`, which differs from
`v` whenever `4` does not divide `v`; `int(...)` is floor on non-negative
values and ceiling on negative ones; and every stored quarterly average
price is `int` of the quarter's mean close. -/
theorem C10_int_truncation (current_year years current_month y : ℕ) (v : ℤ)
    (hpos : 0 < v) (hndiv : ¬(4 : ℤ) ∣ v)
    (hwin : current_year - years ≤ y) (hlt : y < current_year) :
    (((save_revenue_to_database "T" "N" current_year current_month []
        (get_revenue_data_from_yahoo current_year years [⟨y, some (v : ℚ)⟩]
          [])).1.map (fun r => r.revenue)).sum =
      4 * pytrunc ((v : ℚ) / 4)) ∧
    (((save_revenue_to_database "T" "N" current_year current_month []
        (get_revenue_data_from_yahoo current_year years [⟨y, some (v : ℚ)⟩]
          [])).1.map (fun r => r.revenue)).sum ≠ v) ∧
    (∀ x : ℚ, 0 ≤ x → pytrunc x = ⌊x⌋) ∧
    (∀ x : ℚ, x < 0 → pytrunc x = ⌈x⌉) ∧
    (∀ (hist : List DailyBar)
      (r : PriceRow), r ∈ process_quarterly_data current_year current_month
        hist →
      r.avg_price = pytrunc (qmean (quarterData hist r.year r.quarter))) := by
  have hvq : (0 : ℚ) < (v : ℚ) := by exact_mod_cast hpos
  have hmap : get_revenue_data_from_yahoo current_year years
      [⟨y, some (v : ℚ)⟩] [] =
      [((y, 1), (v : ℚ) / 4), ((y, 2), (v : ℚ) / 4), ((y, 3), (v : ℚ) / 4),
        ((y, 4), (v : ℚ) / 4)] := by
    unfold get_revenue_data_from_yahoo
    rw [List.foldl_nil, annualPass_singleton current_year years y _ hvq hwin hlt]
  have hsum : ((save_revenue_to_database "T" "N" current_year current_month
      [] (get_revenue_data_from_yahoo current_year years [⟨y, some (v : ℚ)⟩]
        [])).1.map (fun r => r.revenue)).sum = 4 * pytrunc ((v : ℚ) / 4) := by
    rw [hmap]
    unfold save_revenue_to_database
    simp only [List.foldl_cons, List.foldl_nil]
    unfold saveRevStep row_key_exists
    norm_num [List.any_cons]
    ring
  have htrunc : pytrunc ((v : ℚ) / 4) = ⌊(v : ℚ) / 4⌋ := by
    unfold pytrunc
    rw [if_pos (le_of_lt (by positivity))]
  refine ⟨hsum, ?_, ?_, ?_, ?_⟩
  · rw [hsum, htrunc]
    intro hc
    refine hndiv ⟨⌊(v : ℚ) / 4⌋, hc.symm⟩
  · intro x hx
    unfold pytrunc
    rw [if_pos hx]
  · intro x hx
    unfold pytrunc
    rw [if_neg (not_le.mpr hx)]
  · intro hist r hr
    exact (process_quarterly_data_mem current_year current_month hist r hr).2.2

/-- Closed witness for the C10 theorem: an annual revenue of 10 in 2024,
split and saved during 2025-11, stores four quarters of 2 summing to 8. -/
theorem C10_int_truncation_witness :
    (0 : ℤ) < 10 ∧ ¬(4 : ℤ) ∣ 10 ∧
    (((save_revenue_to_database "T" "N" 2025 11 []
        (get_revenue_data_from_yahoo 2025 10 [⟨2024, some 10⟩] [])).1.map
      (fun r => r.revenue)).sum = 4 * pytrunc (((10 : ℤ) : ℚ) / 4)) ∧
    (((save_revenue_to_database "T" "N" 2025 11 []
        (get_revenue_data_from_yahoo 2025 10 [⟨2024, some 10⟩] [])).1.map
      (fun r => r.revenue)).sum ≠ 10) := by
  have h := C10_int_truncation 2025 10 11 2024 10 (by norm_num)
    (by norm_num) (by norm_num) (by norm_num)
  exact ⟨by norm_num, by norm_num, h.1, h.2.1⟩

theorem check_fetch_zero_iff (store : RevStore) (provider : RevMap)
    (ticker name : String) (current_year current_month current_day : ℕ)
    (h : ticker ≠ "") :
    (check_stock_revenue store provider ticker name current_year
      current_month current_day).2.1 = 0 ↔
      ∃ r ∈ store, r.stock_code = ticker ∧ r.cache_year = current_year ∧
        r.cache_month = current_month := by
  unfold check_stock_revenue check_revenue_database_data
  rw [if_neg h]
  by_cases hrows : store.filter (fun r =>
      decide (r.stock_code = ticker ∧ r.cache_year = current_year ∧
        r.cache_month = current_month)) ≠ []
  · rw [if_pos hrows, if_pos ⟨rfl, hrows⟩]
    constructor
    · intro _
      obtain ⟨r, hr⟩ := List.exists_mem_of_ne_nil _ hrows
      have hmem := List.mem_filter.mp hr
      exact ⟨r, hmem.1, by simpa using hmem.2⟩
    · intro _
      rfl
  · have hempty : store.filter (fun r =>
        decide (r.stock_code = ticker ∧ r.cache_year = current_year ∧
          r.cache_month = current_month)) = [] := by
      by_contra hc
      exact hrows hc
    rw [if_neg hrows, if_neg (fun hc => Bool.false_ne_true hc.1)]
    constructor
    · intro hzero
      by_cases hprov : provider = []
      · rw [if_pos hprov] at hzero
        simp at hzero
      · rw [if_neg hprov] at hzero
        simp at hzero
    · intro ⟨r, hrmem, hrtag⟩
      exfalso
      have hrin : r ∈ store.filter (fun r =>
          decide (r.stock_code = ticker ∧ r.cache_year = current_year ∧
            r.cache_month = current_month)) :=
        List.mem_filter.mpr ⟨hrmem, by simpa using hrtag⟩
      rw [hempty] at hrin
      simp at hrin

theorem check_store_grows (store : RevStore) (provider : RevMap)
    (ticker name : String) (current_year current_month current_day : ℕ)
    (r : RevRow) (hr : r ∈ store) :
    r ∈ (check_stock_revenue store provider ticker name current_year
      current_month current_day).1 := by
  unfold check_stock_revenue
  by_cases ht : ticker = ""
  · simpa [ht] using hr
  · rw [if_neg ht]
    by_cases hhit : (check_revenue_database_data store current_year
        current_month ticker).1 = true ∧
        (check_revenue_database_data store current_year current_month
          ticker).2 ≠ []
    · simpa [hhit] using hr
    · simp only [hhit, if_false]
      by_cases hprov : provider = []
      · simpa [hprov] using hr
      · simp only [hprov, if_false]
        exact saveRev_foldl_preserves ticker name _ _ provider store 0 0 r hr

/-- C6 counterexample: with every fetched quarter already covered by rows
cached in a previous month, the first `check` of the new month fetches,
inserts nothing (all keys skipped by the upsert-once adapter), and leaves no
current-month row, so the second `check` of the same month fetches again —
two provider fetches, not one. -/
theorem C6_check_twice_counterexample :
    (check_stock_revenue [⟨"AAPL", "Apple", 2024, 1, 2, 2025, 10⟩]
      [((2024, 1), 77)] "AAPL" "Apple" 2025 11 20).2.1 = 1 ∧
    (check_stock_revenue [⟨"AAPL", "Apple", 2024, 1, 2, 2025, 10⟩]
      [((2024, 1), 77)] "AAPL" "Apple" 2025 11 20).1 =
      [⟨"AAPL", "Apple", 2024, 1, 2, 2025, 10⟩] ∧
    (check_stock_revenue
      (check_stock_revenue [⟨"AAPL", "Apple", 2024, 1, 2, 2025, 10⟩]
        [((2024, 1), 77)] "AAPL" "Apple" 2025 11 20).1
      [((2024, 1), 77)] "AAPL" "Apple" 2025 11 20).2.1 = 1 := by
  refine ⟨by decide, by decide, by decide⟩

/-- C6 amended: a `check` call never deletes stored rows (the store only
grows), and the second of two same-month `check` calls skips the provider
fetch iff the store after the first call holds some row for the ticker
tagged with the current month — which holds when the first call was a cache
hit or its save inserted at least one row, but fails when stale rows from an
earlier month cover every fetched quarter key. -/
theorem C6_check_cache_amended (store : RevStore) (provider : RevMap)
    (ticker name : String) (current_year current_month current_day : ℕ)
    (h : ticker ≠ "") :
    (∀ r ∈ store, r ∈ (check_stock_revenue store provider ticker name
      current_year current_month current_day).1) ∧
    ((check_stock_revenue
        (check_stock_revenue store provider ticker name current_year
          current_month current_day).1 provider ticker name current_year
        current_month current_day).2.1 = 0 ↔
      ∃ r ∈ (check_stock_revenue store provider ticker name current_year
          current_month current_day).1,
        r.stock_code = ticker ∧ r.cache_year = current_year ∧
          r.cache_month = current_month) := by
  exact ⟨fun r hr => check_store_grows store provider ticker name
      current_year current_month current_day r hr,
    check_fetch_zero_iff _ provider ticker name current_year current_month
      current_day h⟩

/-- Closed witness for the amended C6 theorem: after a first check that
inserts a current-month row into an empty store, the second check performs
no fetch. -/
theorem C6_check_cache_amended_witness :
    ("AAPL" : String) ≠ "" ∧
    ((check_stock_revenue
        (check_stock_revenue [] [((2024, 1), 77)] "AAPL" "Apple" 2025 11
          20).1 [((2024, 1), 77)] "AAPL" "Apple" 2025 11 20).2.1 = 0 ↔
      ∃ r ∈ (check_stock_revenue [] [((2024, 1), 77)] "AAPL" "Apple" 2025 11
          20).1,
        r.stock_code = "AAPL" ∧ r.cache_year = 2025 ∧ r.cache_month = 11) := by
  refine ⟨by decide, ?_⟩
  exact (C6_check_cache_amended [] [((2024, 1), 77)] "AAPL" "Apple" 2025 11
    20 (by decide)).2

theorem c5_pytrunc_val : pytrunc ((2500000000 : ℚ)) = 2500000000 := by
  norm_num [pytrunc]

theorem c5_save_store :
    (save_revenue_to_database "AAPL" "Apple" 2025 11 []
      [((2024, 1), (2500000000 : ℚ))]).1 =
      [⟨"AAPL", "Apple", 2024, 1, 2500000000, 2025, 11⟩] := by
  unfold save_revenue_to_database
  rw [List.foldl_cons, List.foldl_nil]
  unfold saveRevStep row_key_exists
  norm_num [c5_pytrunc_val]

theorem c5_db :
    get_revenue_database_data
      [⟨"AAPL", "Apple", 2024, 1, 2500000000, 2025, 11⟩] "AAPL" 2025 4 =
      [⟨"AAPL", "Apple", 2024, 1, 2500000000, 2025, 11⟩] := by
  decide

theorem c5_refresh_result :
    refresh_stock_revenue [] [((2024, 1), (2500000000 : ℚ))] "AAPL" "Apple"
      2025 11 20 =
      ([⟨"AAPL", "Apple", 2024, 1, 2500000000, 2025, 11⟩], 1,
        ApiResult.ok
          (format_revenue_chart_data
            (revRowsToDataRows
              [⟨"AAPL", "Apple", 2024, 1, 2500000000, 2025, 11⟩]) 4 none
            2025 11 20) (some 0)) := by
  unfold refresh_stock_revenue
  rw [if_neg (by decide : ¬("AAPL" : String) = ""),
    if_neg (by decide : ¬([((2024, 1), (2500000000 : ℚ))] :
      List ((ℕ × ℕ) × ℚ)) = [])]
  simp only [clear_revenue_cache_data_for_ticker, List.filter_nil,
    List.length_nil, c5_save_store, c5_db]
  rw [if_neg (by decide :
    ¬([⟨"AAPL", "Apple", 2024, 1, 2500000000, 2025, 11⟩] : RevStore) = [])]

theorem c5_check_result :
    (check_stock_revenue
      [⟨"AAPL", "Apple", 2024, 1, 2500000000, 2025, 11⟩]
      [((2024, 1), (2500000000 : ℚ))] "AAPL" "Apple" 2025 11 20).2.2 =
      ApiResult.ok
        (format_revenue_chart_data
          (revRowsToDataRows
            [⟨"AAPL", "Apple", 2024, 1, 2500000000, 2025, 11⟩]) 4
          (some "AAPL") 2025 11 20) none := by
  have hcd : check_revenue_database_data
      [⟨"AAPL", "Apple", 2024, 1, 2500000000, 2025, 11⟩] 2025 11 "AAPL" =
      (true, [⟨"AAPL", "Apple", 2024, 1, 2500000000, 2025, 11⟩]) := by
    decide
  unfold check_stock_revenue
  rw [if_neg (by decide : ¬("AAPL" : String) = "")]
  simp only [hcd]
  rw [if_pos ⟨trivial, by decide⟩]

theorem convert_units_rev_kr (x : ℚ) :
    convert_units "revenue" (some "KR") x = x / 100000000 := by
  unfold convert_units
  rw [if_pos (by decide), if_neg (by decide)]

theorem convert_units_rev_us (x : ℚ) :
    convert_units "revenue" (some "US") x = x / 1000000000 := by
  unfold convert_units
  rw [if_pos (by decide), if_pos rfl]

theorem c5_chart_value_kr :
    (format_revenue_chart_data
      (revRowsToDataRows
        [⟨"AAPL", "Apple", 2024, 1, 2500000000, 2025, 11⟩]) 4 none
      2025 11 20).values.getD 8 none = some 25 := by
  have hlen : (8 : ℕ) < (generate_standard_labels 4 2025 11 20).length := by
    decide
  have hl8 : (generate_standard_labels 4 2025 11 20).getD 8 "" =
      qlabel 2024 1 := by
    decide
  unfold format_revenue_chart_data format_chart_data_by_period
  rw [map_getD_of_lt _ _ 8 "" none hlen, hl8,
    chart_data_map_present _ _ _ _ ⟨2024, 1, some ((2500000000 : ℤ) : ℚ)⟩
      (by simp [revRowsToDataRows]) (by norm_num)
      (by simp [revRowsToDataRows])]
  have hmkt : revenue_market none = some "KR" := rfl
  rw [hmkt, convert_units_rev_kr]
  norm_num [pyround2]

theorem c5_chart_value_us :
    (format_revenue_chart_data
      (revRowsToDataRows
        [⟨"AAPL", "Apple", 2024, 1, 2500000000, 2025, 11⟩]) 4
      (some "AAPL") 2025 11 20).values.getD 8 none = some (5 / 2) := by
  have hlen : (8 : ℕ) < (generate_standard_labels 4 2025 11 20).length := by
    decide
  have hl8 : (generate_standard_labels 4 2025 11 20).getD 8 "" =
      qlabel 2024 1 := by
    decide
  unfold format_revenue_chart_data format_chart_data_by_period
  rw [map_getD_of_lt _ _ 8 "" none hlen, hl8,
    chart_data_map_present _ _ _ _ ⟨2024, 1, some ((2500000000 : ℤ) : ℚ)⟩
      (by simp [revRowsToDataRows]) (by norm_num)
      (by simp [revRowsToDataRows])]
  have hmkt : revenue_market (some "AAPL") = some "US" := by decide
  rw [hmkt, convert_units_rev_us]
  norm_num [pyround2]

/-- C5: the evaluation of the code at the failing input.  With a US ticker,
`refresh` formats the chart without passing the ticker (src/app.py line
6742), so the Korean 1e8 divisor applies and the 2024Q1 revenue of
2.5e9 charts as 25, while the immediately following same-month `check`
formats with the ticker, applies the US 1e9 divisor and charts 2.5 — the
two responses' chart_data differ although the claim says they are
identical; the `deleted_count` conjunct of the claim does hold (0 rows were
tagged with 2025-11 before the clear). -/
theorem C5_refresh_then_check_divergence :
    (refresh_stock_revenue [] [((2024, 1), (2500000000 : ℚ))] "AAPL" "Apple"
      2025 11 20).2.2.chartValues.getD 8 none = some 25 ∧
    (check_stock_revenue
      (refresh_stock_revenue [] [((2024, 1), (2500000000 : ℚ))] "AAPL"
        "Apple" 2025 11 20).1 [((2024, 1), (2500000000 : ℚ))] "AAPL" "Apple"
      2025 11 20).2.2.chartValues.getD 8 none = some (5 / 2) ∧
    (refresh_stock_revenue [] [((2024, 1), (2500000000 : ℚ))] "AAPL" "Apple"
      2025 11 20).2.2.chartValues ≠
      (check_stock_revenue
        (refresh_stock_revenue [] [((2024, 1), (2500000000 : ℚ))] "AAPL"
          "Apple" 2025 11 20).1 [((2024, 1), (2500000000 : ℚ))] "AAPL"
        "Apple" 2025 11 20).2.2.chartValues ∧
    (refresh_stock_revenue [] [((2024, 1), (2500000000 : ℚ))] "AAPL" "Apple"
      2025 11 20).2.2.deleted = some 0 := by
  have h1 : (refresh_stock_revenue [] [((2024, 1), (2500000000 : ℚ))] "AAPL"
      "Apple" 2025 11 20).2.2.chartValues.getD 8 none = some 25 := by
    rw [c5_refresh_result]
    exact c5_chart_value_kr
  have h2 : (check_stock_revenue
      (refresh_stock_revenue [] [((2024, 1), (2500000000 : ℚ))] "AAPL"
        "Apple" 2025 11 20).1 [((2024, 1), (2500000000 : ℚ))] "AAPL" "Apple"
      2025 11 20).2.2.chartValues.getD 8 none = some (5 / 2) := by
    rw [c5_refresh_result]
    rw [c5_check_result]
    exact c5_chart_value_us
  refine ⟨h1, h2, ?_, ?_⟩
  · intro hc
    rw [hc] at h1
    rw [h1] at h2
    have : (25 : ℚ) = 5 / 2 := by
      simpa using h2
    norm_num at this
  · rw [c5_refresh_result]
    rfl
